import Mathlib

/-!
Shallow embedding of `src/app.py` (a Shiny dashboard supervising a WebSocket
connection to an ESP32 device), for checking the repository's specification.

The embedding models:
  * JSON values as delivered by `json.loads` (`JVal`), with Python `dict`
    semantics for the mappings the code builds (insertion order kept,
    assignment to an existing key updates in place);
  * the inbound-message classification and read loop of `connect_websocket`
    (lines 27-53), including which Python exceptions are caught by the inner
    loop and which escape to the outer `except Exception` handler;
  * the mailbox `update_queue` (a FIFO `queue.Queue`) and the consumer drain
    `update_from_queue` (lines 143-152);
  * the command sender `send_command` (lines 65-73);
  * the history-trimming step of `create_power_graph` (lines 83-88);
  * the per-room UI handlers `delete_handler` (lines 233-241) and
    `threshold_handler` (lines 243-252) that touch the `rooms` dictionary.
-/

/-- Python exception classes that matter to the control flow of `app.py`.
`json.loads` raises `JSONDecodeError`; subscripting a dict with a missing key
raises `KeyError`; subscripting a non-dict with a string, iterating a
non-iterable, or using an unhashable dict key raises `TypeError`; calling
`.get` on a non-dict raises `AttributeError`. -/
inductive PyErr where
  | jsonDecode
  | keyError
  | typeError
  | attributeError
  | osError
  deriving DecidableEq, Repr

/-- A JSON value as produced by `json.loads`: `null`, booleans, numbers,
strings, arrays, and objects (Python dicts with string keys, in insertion
order, keys unique). Numbers are kept abstract as integers; no claim involves
numeric arithmetic, only storage and comparison. -/
inductive JVal where
  | null
  | bool (b : Bool)
  | num (n : Int)
  | str (s : String)
  | arr (elems : List JVal)
  | obj (fields : List (String × JVal))

/-- A hashable JSON value, usable as a Python dict key (lists and dicts are
unhashable). The rooms mapping `{room["id"]: room for ...}` is keyed by such
values. -/
inductive JKey where
  | null
  | bool (b : Bool)
  | num (n : Int)
  | str (s : String)
  deriving DecidableEq, Repr

/-- Lookup in a JSON object, i.e. Python `d.get(k)` / `d[k]` on a dict with
string keys (keys are unique in a dict produced by `json.loads`). -/
def objGet (fields : List (String × JVal)) (k : String) : Option JVal :=
  match fields with
  | [] => none
  | (k', v) :: rest => if k' = k then some v else objGet rest k

/-- Python dict assignment `d[k] = v` on a dict with `JKey` keys: an existing
key keeps its position and gets the new value; a new key is appended. -/
def dictSet (d : List (JKey × JVal)) (k : JKey) (v : JVal) : List (JKey × JVal) :=
  match d with
  | [] => [(k, v)]
  | (k', v') :: rest => if k' = k then (k', v) :: rest else (k', v') :: dictSet rest k v

/-- Python `k in d` on a dict with `JKey` keys. -/
def dictContains (d : List (JKey × JVal)) (k : JKey) : Bool :=
  match d with
  | [] => false
  | (k', _) :: rest => k' = k || dictContains rest k

/-- Python `d.get(k)` on a dict with `JKey` keys. -/
def dictGet (d : List (JKey × JVal)) (k : JKey) : Option JVal :=
  match d with
  | [] => none
  | (k', v) :: rest => if k' = k then some v else dictGet rest k

/-- Python `del d[k]` on a dict with `JKey` keys (the key is present exactly
once in a real dict; all occurrences are removed here). -/
def dictDel (d : List (JKey × JVal)) (k : JKey) : List (JKey × JVal) :=
  match d with
  | [] => []
  | (k', v) :: rest => if k' = k then dictDel rest k else (k', v) :: dictDel rest k

/-- The events `connect_websocket` puts on `update_queue`: either
`{"type": "ws_connected", "value": bool}` or
`{"type": "rooms", "value": mapping id -> room}`. -/
inductive MailboxEvent where
  | wsConnected (value : Bool)
  | roomsSnapshot (value : List (JKey × JVal))

/-- Python `room["id"]` used as a dict key, for one element `room` of
`data["rooms"]`. A non-dict element raises `TypeError` (string subscript on a
non-dict), a dict without `"id"` raises `KeyError`, and an unhashable id
value (list or dict) raises `TypeError`. -/
def roomId (room : JVal) : Except PyErr JKey :=
  match room with
  | .obj fields =>
    match objGet fields "id" with
    | none => .error .keyError
    | some .null => .ok .null
    | some (.bool b) => .ok (.bool b)
    | some (.num n) => .ok (.num n)
    | some (.str s) => .ok (.str s)
    | some (.arr _) => .error .typeError
    | some (.obj _) => .error .typeError
  | _ => .error .typeError

/-- The dict comprehension `{room["id"]: room for room in rs}` with an
explicit accumulator: each element's id is evaluated in order and assigned
into the dict under construction (a later duplicate id overwrites the value,
keeping the first occurrence's position). -/
def indexByIdAux (rs : List JVal) (acc : List (JKey × JVal)) :
    Except PyErr (List (JKey × JVal)) :=
  match rs with
  | [] => .ok acc
  | room :: rest =>
    match roomId room with
    | .error e => .error e
    | .ok k => indexByIdAux rest (dictSet acc k room)

/-- The dict comprehension `{room["id"]: room for room in rs}` (line 43). -/
def indexById (rs : List JVal) : Except PyErr (List (JKey × JVal)) :=
  indexByIdAux rs []

/-- The Python comparison `data.get("type") == "rooms"` (line 41): true
exactly when the value is the string `"rooms"`. -/
def isRoomsType (v : Option JVal) : Bool :=
  match v with
  | some (.str s) => s == "rooms"
  | _ => false

/-- Lines 41-43 applied to `data = json.loads(message)`: `data.get("type")`
raises `AttributeError` unless `data` is a dict; when the type is the string
`"rooms"`, `data["rooms"]` is read (KeyError if absent) and the comprehension
iterates it — a list is indexed by id, an empty string or empty dict iterates
zero times and yields an empty mapping, and every other payload raises
(`TypeError` from iterating a non-iterable or from subscripting the iterated
element with `"id"`). Any other type value produces no event. -/
def classify (data : JVal) : Except PyErr (Option MailboxEvent) :=
  match data with
  | .obj fields =>
    if isRoomsType (objGet fields "type") then
      match objGet fields "rooms" with
      | none => .error .keyError
      | some (.arr rs) =>
        match indexById rs with
        | .error e => .error e
        | .ok m => .ok (some (.roomsSnapshot m))
      | some (.str s) =>
        if s.isEmpty then .ok (some (.roomsSnapshot [])) else .error .typeError
      | some (.obj fs) =>
        if fs.isEmpty then .ok (some (.roomsSnapshot [])) else .error .typeError
      | some _ => .error .typeError
    else .ok none
  | _ => .error .attributeError

/-- What one `websocket.recv` (under `asyncio.wait_for`) delivers to the read
loop. A received text message is abstracted by its `json.loads` outcome:
`none` for text that fails to parse (`JSONDecodeError`), `some v` for text
parsing to `v`. `recvError` stands for any other exception out of the
receive. -/
inductive RecvOutcome where
  | timeout
  | closed
  | msg (parsed : Option JVal)
  | recvError (e : PyErr)

/-- The `json.loads(message)` step, on the abstracted message. -/
def json_loads (parsed : Option JVal) : Except PyErr JVal :=
  match parsed with
  | none => .error .jsonDecode
  | some v => .ok v

/-- Outcome of one iteration of the inner `while` body (lines 38-47): either
the loop continues on the same connection (possibly having queued one event),
or it `break`s (the `except websockets.ConnectionClosed` arm), or an
exception escapes the inner loop (only `asyncio.TimeoutError` and
`ConnectionClosed` are caught there). -/
inductive CycleResult where
  | continueLoop (ev : Option MailboxEvent)
  | breakLoop
  | escape (e : PyErr)

/-- One iteration of the inner read loop body (lines 38-47). -/
def processCycle (recv : RecvOutcome) : CycleResult :=
  match recv with
  | .timeout => .continueLoop none
  | .closed => .breakLoop
  | .recvError e => .escape e
  | .msg parsed =>
    match json_loads parsed with
    | .error e => .escape e
    | .ok data =>
      match classify data with
      | .error e => .escape e
      | .ok ev => .continueLoop ev

/-- Input to one read-loop cycle: the value of `reconnect_event.is_set()`
observed by the `while` guard at the top of the cycle, and what the receive
then yields if the guard lets the body run. -/
structure CycleInput where
  flag : Bool
  recv : RecvOutcome

/-- How the inner `while not reconnect_event.is_set()` loop (lines 37-47)
ended: the guard saw the reconnect trigger set, the body hit
`ConnectionClosed` and broke, an exception escaped, or the supplied finite
schedule of cycles ran out with the loop still reading. -/
inductive ReadExit where
  | flagExit
  | closedExit
  | escaped (e : PyErr)
  | stillReading

/-- The inner read loop over a finite schedule of cycles: the reconnect flag
is consulted by the guard before every receive, and each body iteration is
`processCycle`. Returns the events queued (in queue-put order) and how the
loop ended. -/
def readLoop (inputs : List CycleInput) : List MailboxEvent × ReadExit :=
  match inputs with
  | [] => ([], .stillReading)
  | c :: rest =>
    if c.flag then ([], .flagExit)
    else
      match processCycle c.recv with
      | .continueLoop none => readLoop rest
      | .continueLoop (some ev) =>
        let r := readLoop rest
        (ev :: r.1, r.2)
      | .breakLoop => ([], .closedExit)
      | .escape e => ([], .escaped e)

/-- Observable actions of one outer-loop iteration of `connect_websocket`,
in program order: a `update_queue.put`, a `logging.error`, or the
`await asyncio.sleep(5)` backoff. -/
inductive SupAction where
  | publish (e : MailboxEvent)
  | logError
  | sleepBackoff

/-- Whether `websockets.connect` plus the identify send (lines 32-34)
succeeded; `fail` covers a refused connection or a failed identify send,
both of which reach the outer `except Exception` handler with no event
published yet. -/
inductive ConnectOutcome where
  | ok
  | fail

/-- How one outer-loop iteration ended: with the reconnect trigger observed
(read loop cleanly exited, connection closed by the `async with`, retry is
immediate), with `ConnectionClosed` (same immediate retry), with an
exception caught by the outer handler (error logged, `ws_connected false`
published, 5 s backoff), or still inside the read loop. -/
inductive SessionEnd where
  | reconnect
  | closed
  | errored
  | stillReading

/-- The successful-connect side of one outer-loop iteration, given the read
loop's result: the identify send and `ws_connected true` publish come first,
then the read loop's own queue puts; an escaping exception additionally runs
the outer handler (error log, `ws_connected false` publish, 5 s backoff). -/
def sessionOf (r : List MailboxEvent × ReadExit) : List SupAction × SessionEnd :=
  match r.2 with
  | .flagExit => (SupAction.publish (.wsConnected true) :: r.1.map SupAction.publish, .reconnect)
  | .closedExit => (SupAction.publish (.wsConnected true) :: r.1.map SupAction.publish, .closed)
  | .stillReading =>
    (SupAction.publish (.wsConnected true) :: r.1.map SupAction.publish, .stillReading)
  | .escaped _ =>
    (SupAction.publish (.wsConnected true) :: r.1.map SupAction.publish
      ++ [.logError, .publish (.wsConnected false), .sleepBackoff], .errored)

/-- One iteration of the outer `while True` loop (lines 30-53): on a failed
connect (or failed identify send) the outer handler logs, publishes
`ws_connected false` and sleeps the 5 s backoff; on a successful connect the
identify message is sent, `ws_connected true` is published, and the inner
read loop runs, with any escaping exception caught by the same outer
handler. Returns the iteration's action trace in program order and how it
ended. -/
def session (c : ConnectOutcome) (inputs : List CycleInput) :
    List SupAction × SessionEnd :=
  match c with
  | .fail => ([.logError, .publish (.wsConnected false), .sleepBackoff], .errored)
  | .ok => sessionOf (readLoop inputs)

/-- The FIFO `update_queue` (`queue.Queue`, line 16): a list with the head at
the front (`get` returns the head). `put` appends at the back. -/
def queuePut (q : List MailboxEvent) (e : MailboxEvent) : List MailboxEvent :=
  q ++ [e]

/-- A sequence of `put`s in order. -/
def queuePutAll (q : List MailboxEvent) (es : List MailboxEvent) : List MailboxEvent :=
  match es with
  | [] => q
  | e :: rest => queuePutAll (queuePut q e) rest

/-- The drain loop `while not update_queue.empty(): update_queue.get()`
(lines 145-146): returns the events removed, in removal order, paired with
the queue contents left behind. It is structurally recursive on the queue,
hence total — the loop never blocks. -/
def drain_all (q : List MailboxEvent) : List MailboxEvent × List MailboxEvent :=
  match q with
  | [] => ([], [])
  | e :: rest =>
    let r := drain_all rest
    (e :: r.1, r.2)

/-- The consumer-side global state touched by `update_from_queue`: the
`rooms` dict (line 19) and the `ws_connected` flag (line 20). -/
structure GlobalState where
  rooms : List (JKey × JVal)
  ws_connected : Bool

/-- The body of the drain loop for one event (lines 147-152):
`ws_connected` events overwrite the flag; `rooms` events
`rooms.clear(); rooms.update(value)` — i.e. the dict becomes exactly the
event's mapping. -/
def applyUpdate (s : GlobalState) (u : MailboxEvent) : GlobalState :=
  match u with
  | .wsConnected v => { s with ws_connected := v }
  | .roomsSnapshot m => { s with rooms := m }

/-- `update_from_queue` (lines 143-152) applied to the drained events in
removal order. -/
def update_from_queue (s : GlobalState) (drained : List MailboxEvent) : GlobalState :=
  match drained with
  | [] => s
  | u :: rest => update_from_queue (applyUpdate s u) rest

/-- The value of the last `rooms` event in a drained sequence, if any. -/
def lastSnapshot (drained : List MailboxEvent) : Option (List (JKey × JVal)) :=
  match drained with
  | [] => none
  | .wsConnected _ :: rest => lastSnapshot rest
  | .roomsSnapshot m :: rest => (lastSnapshot rest).getD m |> some

/-- Transport behaviour offered to one `send_command` call: whether
`websockets.connect` succeeds, and if so whether the single
`websocket.send` succeeds. -/
structure NetBehavior where
  connectOk : Bool
  sendOk : Bool

/-- What one `send_command` call did, observably: whether a fresh connection
was opened, the messages actually sent on it, whether it was closed again,
whether an exception reached the caller, and whether an error was logged. -/
structure SendResult where
  openedFresh : Bool
  sentMessages : List JVal
  closedConn : Bool
  raisedToCaller : Bool
  loggedError : Bool

/-- The dict literal `{"type": "command", "action": action, **kwargs}`
(line 69), built left to right with Python dict-assignment semantics. -/
def commandMsg (action : String) (kwargs : List (String × JVal)) : JVal :=
  .obj (kwargs.foldl (fun d kv =>
    match objGet d kv.1 with
    | some _ => d.map (fun kv' => if kv'.1 = kv.1 then (kv'.1, kv.2) else kv')
    | none => d ++ [kv])
    [("type", .str "command"), ("action", .str action)])

/-- `send_command(action, **kwargs)` (lines 65-73): open a fresh connection
(`async with websockets.connect`), send the one command message, and let the
`async with` close the connection; every exception is caught by the
`except Exception` arm and only logged, never raised to the caller. -/
def send_command (action : String) (kwargs : List (String × JVal))
    (net : NetBehavior) : SendResult :=
  if net.connectOk then
    if net.sendOk then
      { openedFresh := true, sentMessages := [commandMsg action kwargs],
        closedConn := true, raisedToCaller := false, loggedError := false }
    else
      { openedFresh := true, sentMessages := [],
        closedConn := true, raisedToCaller := false, loggedError := true }
  else
    { openedFresh := false, sentMessages := [],
      closedConn := false, raisedToCaller := false, loggedError := true }

/-- One history sample appended by `create_power_graph`: the
`{"timestamp": current_time, "power": room["display_power"]}` dict
(line 86). The timestamp is an abstract clock tick and the power is whatever
JSON value the room carried. -/
structure Sample where
  timestamp : Nat
  power : JVal

/-- Lines 86-88 of `create_power_graph`: append the new sample to
`room["data"]`, then `if len(room["data"]) > 50: room["data"].pop(0)` — the
oldest sample (index 0) is removed when the list has grown past 50. -/
def record_sample (data : List Sample) (s : Sample) : List Sample :=
  let d := data ++ [s]
  if 50 < d.length then d.drop 1 else d

/-- Iterated `record_sample` calls, oldest call first. -/
def record_all (data : List Sample) (samples : List Sample) : List Sample :=
  match samples with
  | [] => data
  | s :: rest => record_all (record_sample data s) rest

/-- The `delete_handler` closure for room `r_id` (lines 236-240), restricted
to its effect on the `rooms` dict: after `send_command("remove", ...)` it
immediately runs `if r_id in rooms: del rooms[r_id]`. -/
def delete_handler (r_id : JKey) (rooms : List (JKey × JVal)) : List (JKey × JVal) :=
  if dictContains rooms r_id then dictDel rooms r_id else rooms

/-- Python `room["threshold"] = t` on one room value: assignment into the
room dict if the room is a dict, `TypeError` otherwise. -/
def setThreshold (room : JVal) (t : Int) : Except PyErr JVal :=
  match room with
  | .obj fields =>
    .ok (.obj (match objGet fields "threshold" with
      | some _ => fields.map (fun kv => if kv.1 = "threshold" then (kv.1, .num t) else kv)
      | none => fields ++ [("threshold", .num t)]))
  | _ => .error .typeError

/-- Helper for `threshold_handler`: rewrite the value stored under `r_id`. -/
def dictSetAt (d : List (JKey × JVal)) (k : JKey) (v : JVal) : List (JKey × JVal) :=
  d.map (fun kv => if kv.1 = k then (kv.1, v) else kv)

/-- The `threshold_handler` closure for room `r_id` (lines 246-251),
restricted to its effect on the `rooms` dict: when the numeric input holds a
value and the room still exists, `rooms[r_id]["threshold"] = new_threshold`
is executed directly (no mailbox event is involved). -/
def threshold_handler (r_id : JKey) (new_threshold : Option Int)
    (rooms : List (JKey × JVal)) : Except PyErr (List (JKey × JVal)) :=
  match new_threshold with
  | none => .ok rooms
  | some t =>
    if dictContains rooms r_id then
      match dictGet rooms r_id with
      | none => .ok rooms
      | some room =>
        match setThreshold room t with
        | .error e => .error e
        | .ok room' => .ok (dictSetAt rooms r_id room')
    else .ok rooms

/-- Whether a trace action is a `ConnectivityChanged(false)` publish
(`update_queue.put({"type": "ws_connected", "value": False})`). -/
def isFalseEvent (a : SupAction) : Bool :=
  match a with
  | .publish (.wsConnected false) => true
  | _ => false

/-- Number of `ConnectivityChanged(false)` publishes in a trace. -/
def countFalse (trace : List SupAction) : Nat :=
  trace.countP isFalseEvent

theorem queuePutAll_eq (es q : List MailboxEvent) : queuePutAll q es = q ++ es := by
  induction es generalizing q with
  | nil => simp [queuePutAll]
  | cons e rest ih => simp [queuePutAll, queuePut, ih]

theorem drain_all_eq (q : List MailboxEvent) : drain_all q = (q, []) := by
  induction q with
  | nil => rfl
  | cons e rest ih => simp [drain_all, ih]

theorem update_from_queue_rooms (drained : List MailboxEvent) (s : GlobalState) :
    (update_from_queue s drained).rooms = (lastSnapshot drained).getD s.rooms := by
  induction drained generalizing s with
  | nil => rfl
  | cons u rest ih =>
    cases u with
    | wsConnected v => simp [update_from_queue, lastSnapshot, applyUpdate, ih]
    | roomsSnapshot m => simp [update_from_queue, lastSnapshot, applyUpdate, ih]

/-- C4: for every sequence of events pushed into the mailbox, the `rooms`
dict after `update_from_queue` drains them is exactly the mapping of the
last `rooms` snapshot drained (entities absent from it are gone, nothing
from earlier snapshots survives); with no snapshot drained the dict is
unchanged. -/
theorem store_reflects_last_snapshot (s : GlobalState) (events : List MailboxEvent) :
    (update_from_queue s (drain_all (queuePutAll [] events)).1).rooms
      = (lastSnapshot events).getD s.rooms := by
  rw [queuePutAll_eq, drain_all_eq]
  simpa using update_from_queue_rooms events s

theorem record_sample_length (data : List Sample) (s : Sample) (h : data.length ≤ 50) :
    (record_sample data s).length ≤ 50 := by
  simp only [record_sample]
  split
  · simp only [List.length_drop, List.length_append, List.length_singleton]
    omega
  · simp only [List.length_append, List.length_singleton] at *
    omega

theorem record_all_of_le (samples data : List Sample)
    (h : data.length + samples.length ≤ 50) :
    record_all data samples = data ++ samples := by
  induction samples generalizing data with
  | nil => simp [record_all]
  | cons s rest ih =>
    simp only [List.length_cons] at h
    have hs : record_sample data s = data ++ [s] := by
      simp only [record_sample]
      rw [if_neg]
      simp only [List.length_append, List.length_singleton]
      omega
    have : record_all (data ++ [s]) rest = (data ++ [s]) ++ rest := by
      apply ih
      simp only [List.length_append, List.length_singleton]
      omega
    simp [record_all, hs, this]

theorem record_all_snoc (samples data : List Sample) (s : Sample) :
    record_all data (samples ++ [s]) = record_sample (record_all data samples) s := by
  induction samples generalizing data with
  | nil => simp [record_all]
  | cons x rest ih => simp [record_all, ih]

/-- C5: the per-room history `room["data"]` never exceeds 50 samples after a
`record_sample` step (from any history within capacity), and 51 successive
`record_sample` calls starting from an empty history leave exactly the last
50 samples — the oldest is evicted first. -/
theorem history_capacity_50 :
    (∀ (data : List Sample) (s : Sample), data.length ≤ 50 →
        (record_sample data s).length ≤ 50)
    ∧ (∀ samples : List Sample, samples.length = 51 →
        record_all [] samples = samples.drop 1
        ∧ (record_all [] samples).length = 50) := by
  refine ⟨record_sample_length, ?_⟩
  intro samples h
  rcases List.eq_nil_or_concat samples with rfl | ⟨init, last, rfl⟩
  · exact absurd h (by decide)
  · simp only [List.concat_eq_append] at h ⊢
    have hinit : init.length = 50 := by
      simp only [List.length_append, List.length_singleton] at h
      omega
    have h1 : record_all [] (init ++ [last]) = record_sample init last := by
      rw [record_all_snoc, record_all_of_le init [] (by simp [hinit])]
      simp
    have h2 : record_sample init last = (init ++ [last]).drop 1 := by
      simp only [record_sample]
      rw [if_pos]
      simp only [List.length_append, List.length_singleton, hinit]
      omega
    have h3 : record_all [] (init ++ [last]) = (init ++ [last]).drop 1 := by
      rw [h1, h2]
    refine ⟨h3, ?_⟩
    rw [h3, List.length_drop, h]

/-- Witness for C5 at a concrete history and a concrete run of 51 samples. -/
theorem history_capacity_50_witness :
    (record_sample [] ⟨0, .null⟩).length ≤ 50
    ∧ record_all [] ((List.range 51).map (fun i => ⟨i, .null⟩))
        = ((List.range 51).map (fun i => (⟨i, .null⟩ : Sample))).drop 1 :=
  ⟨history_capacity_50.1 [] ⟨0, .null⟩ (by simp),
   (history_capacity_50.2 ((List.range 51).map (fun i => ⟨i, .null⟩)) (by simp)).1⟩

/-- C6: draining returns every pushed event in push (arrival) order, leaves
the queue empty, and a second drain with no intervening push returns the
empty sequence; `drain_all` is a total structurally recursive function, so a
drain never blocks. -/
theorem drain_push_order (q es : List MailboxEvent) :
    drain_all (queuePutAll q es) = (q ++ es, [])
    ∧ drain_all (drain_all (queuePutAll q es)).2 = ([], []) := by
  rw [queuePutAll_eq, drain_all_eq]
  exact ⟨rfl, rfl⟩

/-- C7: one outer-loop iteration whose connect attempt fails produces
exactly the trace error-log, `ConnectivityChanged(false)` publish, 5 s
backoff sleep — exactly one such event per failed attempt, published before
the backoff sleep begins. -/
theorem connect_failure_one_event (inputs : List CycleInput) :
    session .fail inputs
      = ([.logError, .publish (.wsConnected false), .sleepBackoff], .errored)
    ∧ countFalse (session .fail inputs).1 = 1 :=
  ⟨rfl, rfl⟩

theorem classify_event_snapshot (data : JVal) (ev : MailboxEvent)
    (h : classify data = .ok (some ev)) : ∃ m, ev = .roomsSnapshot m := by
  cases data with
  | null => simp [classify] at h
  | bool b => simp [classify] at h
  | num n => simp [classify] at h
  | str s => simp [classify] at h
  | arr xs => simp [classify] at h
  | obj fields =>
    simp only [classify] at h
    by_cases ht : isRoomsType (objGet fields "type") = true
    · rw [if_pos ht] at h
      cases hr : objGet fields "rooms" with
      | none => simp [hr] at h
      | some v =>
        cases v with
        | null => simp [hr] at h
        | bool b => simp [hr] at h
        | num n => simp [hr] at h
        | str s =>
          simp only [hr] at h
          by_cases hs : s.isEmpty = true
          · rw [if_pos hs] at h
            simp at h
            exact ⟨[], h.symm⟩
          · rw [if_neg hs] at h
            simp at h
        | arr rs =>
          simp only [hr] at h
          cases hidx : indexById rs with
          | error e => simp [hidx] at h
          | ok m =>
            simp [hidx] at h
            exact ⟨m, h.symm⟩
        | obj fs =>
          simp only [hr] at h
          by_cases hs : fs.isEmpty = true
          · rw [if_pos hs] at h
            simp at h
            exact ⟨[], h.symm⟩
          · rw [if_neg hs] at h
            simp at h
    · rw [if_neg ht] at h
      simp at h

theorem processCycle_event_snapshot (r : RecvOutcome) (ev : MailboxEvent)
    (h : processCycle r = .continueLoop (some ev)) : ∃ m, ev = .roomsSnapshot m := by
  cases r with
  | timeout => simp [processCycle] at h
  | closed => simp [processCycle] at h
  | recvError e => simp [processCycle] at h
  | msg parsed =>
    cases parsed with
    | none => simp [processCycle, json_loads] at h
    | some v =>
      simp only [processCycle, json_loads] at h
      cases hc : classify v with
      | error e => simp [hc] at h
      | ok o =>
        cases o with
        | none => simp [hc] at h
        | some ev' =>
          simp only [hc] at h
          simp at h
          exact h ▸ classify_event_snapshot v ev' hc

/-- The read loop only ever queues `rooms` snapshots: no iteration of the
inner loop publishes a `ws_connected` event, so no
`ConnectivityChanged(false)` appears among its puts. -/
theorem readLoop_no_false (inputs : List CycleInput) :
    countFalse ((readLoop inputs).1.map SupAction.publish) = 0 := by
  induction inputs with
  | nil => rfl
  | cons c rest ih =>
    simp only [readLoop]
    by_cases hf : c.flag = true
    · rw [if_pos hf]
      rfl
    · rw [if_neg hf]
      cases hp : processCycle c.recv with
      | breakLoop => rfl
      | escape e => rfl
      | continueLoop o =>
        cases o with
        | none => exact ih
        | some ev =>
          obtain ⟨m, rfl⟩ := processCycle_event_snapshot _ _ hp
          simp only [List.map_cons, countFalse, List.countP_cons]
          simp only [countFalse] at ih
          rw [ih]
          rfl

theorem session_trace_flagExit (inputs : List CycleInput)
    (h : (readLoop inputs).2 = .flagExit) :
    session .ok inputs
      = (SupAction.publish (.wsConnected true)
          :: (readLoop inputs).1.map SupAction.publish, .reconnect) := by
  simp [session, sessionOf, h]

theorem session_trace_closedExit (inputs : List CycleInput)
    (h : (readLoop inputs).2 = .closedExit) :
    session .ok inputs
      = (SupAction.publish (.wsConnected true)
          :: (readLoop inputs).1.map SupAction.publish, .closed) := by
  simp [session, sessionOf, h]

theorem session_trace_escaped (inputs : List CycleInput) (e : PyErr)
    (h : (readLoop inputs).2 = .escaped e) :
    session .ok inputs
      = (SupAction.publish (.wsConnected true)
          :: (readLoop inputs).1.map SupAction.publish
          ++ [.logError, .publish (.wsConnected false), .sleepBackoff], .errored) := by
  simp [session, sessionOf, h]

theorem sleep_not_mem_pub (evs : List MailboxEvent) :
    SupAction.sleepBackoff
      ∉ SupAction.publish (.wsConnected true) :: evs.map SupAction.publish := by
  intro hm
  rcases List.mem_cons.mp hm with h1 | h2
  · exact SupAction.noConfusion h1
  · rcases List.mem_map.mp h2 with ⟨ev, _, hev⟩
    exact SupAction.noConfusion hev

theorem countFalse_true_cons (l : List SupAction) :
    countFalse (SupAction.publish (.wsConnected true) :: l) = countFalse l := by
  simp [countFalse, List.countP_cons, isFalseEvent]

/-- C1 counterexample: a message whose payload fails `json.loads` is not
discarded with the loop continuing — `processCycle` escapes with
`JSONDecodeError`, and the session containing it tears the connection down
(outer handler: error log, `ConnectivityChanged(false)`, 5 s backoff). -/
theorem malformed_not_discarded :
    processCycle (.msg none) = .escape .jsonDecode
    ∧ processCycle (.msg none) ≠ .continueLoop none
    ∧ session .ok [⟨false, .msg none⟩]
        = ([.publish (.wsConnected true), .logError,
            .publish (.wsConnected false), .sleepBackoff], .errored) := by
  refine ⟨rfl, ?_, rfl⟩
  intro h
  exact CycleResult.noConfusion h

/-- C1 (amended): a payload that fails to parse (`json.loads` raises) or to
validate (`classify` raises) is fatal to the connection, not merely dropped:
the exception escapes the inner read loop (only timeout and
`ConnectionClosed` are caught there), the `async with` closes the socket,
and the outer handler logs an error, publishes `ConnectivityChanged(false)`
and sleeps the 5 s backoff before reconnecting; the supervisor process
itself survives and retries. -/
theorem malformed_message_fatal (parsed : Option JVal) (e : PyErr)
    (h : json_loads parsed = .error e
       ∨ ∃ v, json_loads parsed = .ok v ∧ classify v = .error e) :
    processCycle (.msg parsed) = .escape e
    ∧ (∀ rest, readLoop (⟨false, .msg parsed⟩ :: rest) = ([], .escaped e))
    ∧ session .ok [⟨false, .msg parsed⟩]
        = ([.publish (.wsConnected true), .logError,
            .publish (.wsConnected false), .sleepBackoff], .errored) := by
  have hp : processCycle (.msg parsed) = .escape e := by
    rcases h with h | ⟨v, hv, hc⟩
    · simp [processCycle, h]
    · simp [processCycle, hv, hc]
  refine ⟨hp, ?_, ?_⟩
  · intro rest
    simp [readLoop, hp]
  · simp [session, sessionOf, readLoop, hp]

/-- Witness for C1's amended theorem at a concrete unparsable payload. -/
theorem malformed_message_fatal_witness :
    processCycle (.msg none) = CycleResult.escape .jsonDecode
    ∧ readLoop [⟨false, .msg none⟩] = ([], .escaped .jsonDecode) :=
  ⟨(malformed_message_fatal none .jsonDecode (Or.inl rfl)).1,
   (malformed_message_fatal none .jsonDecode (Or.inl rfl)).2.1 []⟩

/-- C3 counterexample: a read loop ending in `ConnectionClosed` publishes no
`ConnectivityChanged(false)` at all before the next connect attempt — the
inner `break` falls out of the `async with` and the outer loop reconnects
directly, so the claimed "exactly one" event is missing. -/
theorem connection_closed_no_event :
    session .ok [⟨false, .closed⟩] = ([SupAction.publish (.wsConnected true)], .closed)
    ∧ countFalse (session .ok [⟨false, .closed⟩]).1 = 0 :=
  ⟨rfl, rfl⟩

/-- C3 (amended): when the read loop exits because of an unexpected error,
exactly one `ConnectivityChanged(false)` is published, positioned before the
backoff sleep that precedes the next connect attempt; but when it exits
because of `ConnectionClosed`, no `ConnectivityChanged(false)` is published
at all and the next connect attempt begins immediately, with no backoff
sleep in the trace. -/
theorem read_exit_events (inputs : List CycleInput) :
    (∀ e : PyErr, (readLoop inputs).2 = .escaped e →
        countFalse (session .ok inputs).1 = 1
        ∧ (session .ok inputs).1
            = SupAction.publish (.wsConnected true)
                :: (readLoop inputs).1.map SupAction.publish
                ++ [.logError, .publish (.wsConnected false), .sleepBackoff]
        ∧ (session .ok inputs).2 = .errored)
    ∧ ((readLoop inputs).2 = .closedExit →
        countFalse (session .ok inputs).1 = 0
        ∧ (session .ok inputs).2 = .closed
        ∧ SupAction.sleepBackoff ∉ (session .ok inputs).1) := by
  constructor
  · intro e h
    have hs := session_trace_escaped inputs e h
    have h0 := readLoop_no_false inputs
    refine ⟨?_, by rw [hs], by rw [hs]⟩
    rw [hs]
    simp only [countFalse, List.countP_cons, List.countP_append] at *
    rw [h0]
    rfl
  · intro h
    have hs := session_trace_closedExit inputs h
    have h0 := readLoop_no_false inputs
    refine ⟨?_, by rw [hs], ?_⟩
    · rw [hs]
      simp only [countFalse, List.countP_cons] at *
      rw [h0]
      rfl
    · rw [hs]
      exact sleep_not_mem_pub _

/-- Witness for C3's amended theorem: an escaping error (a non-dict JSON
payload) yields exactly one `ConnectivityChanged(false)`, and a clean
`ConnectionClosed` yields none. -/
theorem read_exit_events_witness :
    countFalse (session .ok [⟨false, .msg (some (.num 3))⟩]).1 = 1
    ∧ (session .ok [⟨false, .msg (some (.num 3))⟩]).2 = .errored
    ∧ countFalse (session .ok [⟨false, RecvOutcome.closed⟩]).1 = 0
    ∧ (session .ok [⟨false, RecvOutcome.closed⟩]).2 = .closed :=
  ⟨((read_exit_events [⟨false, .msg (some (.num 3))⟩]).1 .attributeError rfl).1,
   ((read_exit_events [⟨false, .msg (some (.num 3))⟩]).1 .attributeError rfl).2.2,
   ((read_exit_events [⟨false, RecvOutcome.closed⟩]).2 rfl).1,
   ((read_exit_events [⟨false, RecvOutcome.closed⟩]).2 rfl).2.1⟩

theorem readLoop_flag_first (pre : List CycleInput) (c : CycleInput)
    (post : List CycleInput)
    (hpre : ∀ x ∈ pre, x.flag = false ∧ ∃ o, processCycle x.recv = .continueLoop o)
    (hc : c.flag = true) :
    (readLoop (pre ++ c :: post)).2 = .flagExit := by
  induction pre with
  | nil =>
    simp [readLoop, hc]
  | cons x rest ih =>
    obtain ⟨hx, o, ho⟩ := hpre x (by simp)
    have ih' := ih (fun y hy => hpre y (by simp [hy]))
    rw [List.cons_append]
    simp only [readLoop]
    rw [if_neg (by simp [hx]), ho]
    cases o with
    | none => exact ih'
    | some ev => simpa using ih'

/-- C8: the reconnect trigger is consulted by the read loop's `while` guard
at the start of every receive cycle: if the flag is set at any cycle, the
loop exits `flagExit` right there, consuming none of the later receives; the
session then ends in `reconnect` — the next connect attempt follows at once,
with no 5 s backoff sleep anywhere in the trace and no
`ConnectivityChanged(false)` published. -/
theorem reconnect_trigger_latency (pre : List CycleInput) (c : CycleInput)
    (post : List CycleInput)
    (hpre : ∀ x ∈ pre, x.flag = false ∧ ∃ o, processCycle x.recv = .continueLoop o)
    (hc : c.flag = true) :
    (readLoop (pre ++ c :: post)).2 = .flagExit
    ∧ (∀ (d : CycleInput) (rest : List CycleInput), d.flag = true →
        readLoop (d :: rest) = ([], .flagExit))
    ∧ (session .ok (pre ++ c :: post)).2 = .reconnect
    ∧ SupAction.sleepBackoff ∉ (session .ok (pre ++ c :: post)).1
    ∧ countFalse (session .ok (pre ++ c :: post)).1 = 0 := by
  have hf := readLoop_flag_first pre c post hpre hc
  have hs := session_trace_flagExit _ hf
  have h0 := readLoop_no_false (pre ++ c :: post)
  refine ⟨hf, ?_, by rw [hs], ?_, ?_⟩
  · intro d rest hd
    simp [readLoop, hd]
  · rw [hs]
    exact sleep_not_mem_pub _
  · rw [hs]
    simp only [countFalse, List.countP_cons] at *
    rw [h0]
    rfl

/-- Witness for C8: one quiet timeout cycle, then the flag is observed set;
the loop exits without touching the pending receive and the session ends in
`reconnect`. -/
theorem reconnect_trigger_latency_witness :
    (readLoop ([⟨false, .timeout⟩] ++ ⟨true, .timeout⟩ :: [⟨false, .closed⟩])).2
      = .flagExit
    ∧ (session .ok ([⟨false, .timeout⟩] ++ ⟨true, .timeout⟩ :: [⟨false, .closed⟩])).2
      = .reconnect :=
  ⟨(reconnect_trigger_latency [⟨false, .timeout⟩] ⟨true, .timeout⟩ [⟨false, .closed⟩]
      (by intro x hx; simp at hx; subst hx; exact ⟨rfl, none, rfl⟩) rfl).1,
   (reconnect_trigger_latency [⟨false, .timeout⟩] ⟨true, .timeout⟩ [⟨false, .closed⟩]
      (by intro x hx; simp at hx; subst hx; exact ⟨rfl, none, rfl⟩) rfl).2.2.1⟩

theorem dictGet_dictDel (d : List (JKey × JVal)) (k : JKey) :
    dictGet (dictDel d k) k = none := by
  induction d with
  | nil => rfl
  | cons p rest ih =>
    obtain ⟨a, b⟩ := p
    simp only [dictDel]
    by_cases hk : a = k
    · rw [if_pos hk]
      exact ih
    · rw [if_neg hk]
      simp only [dictGet]
      rw [if_neg hk]
      exact ih

theorem dictGet_some_contains (d : List (JKey × JVal)) (k : JKey) (v : JVal)
    (h : dictGet d k = some v) : dictContains d k = true := by
  induction d with
  | nil => simp [dictGet] at h
  | cons p rest ih =>
    obtain ⟨a, b⟩ := p
    simp only [dictGet] at h
    simp only [dictContains]
    by_cases hk : a = k
    · simp [hk]
    · rw [if_neg hk] at h
      simp [hk, ih h]

theorem objGet_set_self (fields : List (String × JVal)) (k : String) (v w : JVal)
    (h : objGet fields k = some w) :
    objGet (fields.map (fun kv => if kv.1 = k then (kv.1, v) else kv)) k = some v := by
  induction fields with
  | nil => simp [objGet] at h
  | cons p rest ih =>
    obtain ⟨a, b⟩ := p
    simp only [objGet] at h
    by_cases hk : a = k
    · subst hk
      rw [List.map_cons]
      have hmap : (if (a, b).1 = a then ((a, b).1, v) else (a, b)) = (a, v) := by
        simp
      rw [hmap]
      simp [objGet]
    · rw [if_neg hk] at h
      simp only [List.map_cons]
      simp only [if_neg hk]
      simp only [objGet]
      rw [if_neg hk]
      exact ih h

theorem objGet_append_self (fields : List (String × JVal)) (k : String) (v : JVal)
    (h : objGet fields k = none) :
    objGet (fields ++ [(k, v)]) k = some v := by
  induction fields with
  | nil => simp [objGet]
  | cons p rest ih =>
    obtain ⟨a, b⟩ := p
    simp only [List.cons_append, objGet] at h ⊢
    by_cases hk : a = k
    · rw [if_pos hk] at h
      cases h
    · rw [if_neg hk] at h ⊢
      exact ih h

/-- C2 counterexample: after `delete_handler` runs for `room_1` (which is
what the UI invokes right after `send_command("remove", ...)`), the `rooms`
dict no longer contains `room_1` — without any `RoomsSnapshot` having been
drained; the removal is immediate and bypasses the mailbox. -/
theorem remove_is_immediate :
    dictGet [(JKey.str "room_1", JVal.obj [("id", JVal.str "room_1")])]
        (JKey.str "room_1") = some (JVal.obj [("id", JVal.str "room_1")])
    ∧ delete_handler (JKey.str "room_1")
        [(JKey.str "room_1", JVal.obj [("id", JVal.str "room_1")])] = []
    ∧ dictGet (delete_handler (JKey.str "room_1")
        [(JKey.str "room_1", JVal.obj [("id", JVal.str "room_1")])])
        (JKey.str "room_1") = none :=
  ⟨rfl, rfl, rfl⟩

/-- C2 (amended): the `rooms` store is not mutated only by draining the
mailbox — the per-room UI handlers write it directly: `delete_handler`
removes the entity immediately after sending the remove command (the entity
does not persist until the next snapshot), and `threshold_handler` writes
the entity's `threshold` field in place with no mailbox event involved. -/
theorem store_mutated_outside_drain (rooms : List (JKey × JVal)) (r_id : JKey)
    (fields : List (String × JVal)) (t : Int) :
    (dictContains rooms r_id = true →
        dictGet (delete_handler r_id rooms) r_id = none)
    ∧ (dictGet rooms r_id = some (.obj fields) →
        ∃ fields', threshold_handler r_id (some t) rooms
            = .ok (dictSetAt rooms r_id (.obj fields'))
          ∧ objGet fields' "threshold" = some (.num t)) := by
  constructor
  · intro h
    simp only [delete_handler]
    rw [if_pos h]
    exact dictGet_dictDel rooms r_id
  · intro h
    have hc := dictGet_some_contains rooms r_id _ h
    cases hth : objGet fields "threshold" with
    | none =>
      refine ⟨fields ++ [("threshold", .num t)], ?_,
        objGet_append_self fields "threshold" (.num t) hth⟩
      simp [threshold_handler, hc, h, setThreshold, hth]
    | some w =>
      refine ⟨fields.map (fun kv => if kv.1 = "threshold" then (kv.1, .num t) else kv), ?_,
        objGet_set_self fields "threshold" (.num t) w hth⟩
      simp [threshold_handler, hc, h, setThreshold, hth]

/-- Witness for C2's amended theorem at a concrete one-room store. -/
theorem store_mutated_outside_drain_witness :
    dictGet (delete_handler (JKey.str "room_1")
        [(JKey.str "room_1", JVal.obj [("threshold", JVal.num 2500)])])
        (JKey.str "room_1") = none
    ∧ ∃ fields', threshold_handler (JKey.str "room_1") (some 3000)
          [(JKey.str "room_1", JVal.obj [("threshold", JVal.num 2500)])]
          = .ok (dictSetAt [(JKey.str "room_1", JVal.obj [("threshold", JVal.num 2500)])]
              (JKey.str "room_1") (.obj fields'))
        ∧ objGet fields' "threshold" = some (.num 3000) :=
  ⟨(store_mutated_outside_drain
      [(JKey.str "room_1", JVal.obj [("threshold", JVal.num 2500)])]
      (JKey.str "room_1") [("threshold", JVal.num 2500)] 3000).1 rfl,
   (store_mutated_outside_drain
      [(JKey.str "room_1", JVal.obj [("threshold", JVal.num 2500)])]
      (JKey.str "room_1") [("threshold", JVal.num 2500)] 3000).2 rfl⟩

/-- C9: `send_command` never raises to its caller; it sends at most one
message; whenever it opens a connection it closes it again (the
`async with`); when the transport cooperates it opens a fresh connection and
sends exactly the one message `{type: "command", action, ...params}`; and on
any transport failure it only logs an error, sending nothing. -/
theorem send_command_behavior (action : String) (kwargs : List (String × JVal))
    (net : NetBehavior) :
    (send_command action kwargs net).raisedToCaller = false
    ∧ (send_command action kwargs net).sentMessages.length ≤ 1
    ∧ ((send_command action kwargs net).openedFresh = true →
        (send_command action kwargs net).closedConn = true)
    ∧ (net.connectOk = true →
        (send_command action kwargs net).openedFresh = true
        ∧ (net.sendOk = true →
            (send_command action kwargs net).sentMessages = [commandMsg action kwargs]))
    ∧ ((net.connectOk = false ∨ net.sendOk = false) →
        (send_command action kwargs net).sentMessages = []
        ∧ (send_command action kwargs net).loggedError = true) := by
  rcases net with ⟨co, so⟩
  cases co <;> cases so <;> simp [send_command]

/-- Witness for C9: a successful remove command sends exactly the command
message and raises nothing; a failed connect only logs. -/
theorem send_command_behavior_witness :
    (send_command "remove" [("room_id", JVal.str "room_1")] ⟨true, true⟩).sentMessages
      = [commandMsg "remove" [("room_id", JVal.str "room_1")]]
    ∧ (send_command "remove" [("room_id", JVal.str "room_1")] ⟨true, true⟩).raisedToCaller
      = false
    ∧ (send_command "remove" [("room_id", JVal.str "room_1")] ⟨false, true⟩).loggedError
      = true :=
  ⟨((send_command_behavior "remove" [("room_id", JVal.str "room_1")]
      ⟨true, true⟩).2.2.2.1 rfl).2 rfl,
   (send_command_behavior "remove" [("room_id", JVal.str "room_1")] ⟨true, true⟩).1,
   ((send_command_behavior "remove" [("room_id", JVal.str "room_1")]
      ⟨false, true⟩).2.2.2.2 (Or.inl rfl)).2⟩

theorem dictSet_mem (d : List (JKey × JVal)) (k : JKey) (v : JVal)
    (kv : JKey × JVal) (h : kv ∈ dictSet d k v) : kv ∈ d ∨ kv = (k, v) := by
  induction d with
  | nil =>
    simp only [dictSet, List.mem_singleton] at h
    exact Or.inr h
  | cons p rest ih =>
    obtain ⟨a, b⟩ := p
    simp only [dictSet] at h
    by_cases hk : a = k
    · rw [if_pos hk] at h
      rcases List.mem_cons.mp h with h1 | h2
      · subst hk
        exact Or.inr h1
      · exact Or.inl (List.mem_cons_of_mem _ h2)
    · rw [if_neg hk] at h
      rcases List.mem_cons.mp h with h1 | h2
      · exact Or.inl (h1 ▸ List.mem_cons_self _ _)
      · rcases ih h2 with h3 | h4
        · exact Or.inl (List.mem_cons_of_mem _ h3)
        · exact Or.inr h4

theorem dictContains_dictSet_self (d : List (JKey × JVal)) (k : JKey) (v : JVal) :
    dictContains (dictSet d k v) k = true := by
  induction d with
  | nil => simp [dictSet, dictContains]
  | cons p rest ih =>
    obtain ⟨a, b⟩ := p
    simp only [dictSet]
    by_cases hk : a = k
    · rw [if_pos hk]
      simp [dictContains, hk]
    · rw [if_neg hk]
      simp [dictContains, ih]

theorem dictContains_dictSet_mono (d : List (JKey × JVal)) (k : JKey) (v : JVal)
    (k' : JKey) (h : dictContains d k' = true) :
    dictContains (dictSet d k v) k' = true := by
  induction d with
  | nil => simp [dictContains] at h
  | cons p rest ih =>
    obtain ⟨a, b⟩ := p
    simp only [dictContains] at h
    simp only [dictSet]
    by_cases hk : a = k
    · rw [if_pos hk]
      simp only [dictContains]
      exact h
    · rw [if_neg hk]
      simp only [dictContains] at h ⊢
      rcases Bool.or_eq_true_iff.mp h with h1 | h2
      · rw [h1]
        simp
      · rw [ih h2]
        simp

theorem indexByIdAux_mem (rs : List JVal) (acc m : List (JKey × JVal))
    (h : indexByIdAux rs acc = .ok m) :
    ∀ kv ∈ m, kv ∈ acc ∨ ∃ r ∈ rs, roomId r = .ok kv.1 ∧ kv.2 = r := by
  induction rs generalizing acc with
  | nil =>
    simp only [indexByIdAux] at h
    cases h
    intro kv hkv
    exact Or.inl hkv
  | cons room rest ih =>
    simp only [indexByIdAux] at h
    cases hr : roomId room with
    | error e =>
      rw [hr] at h
      exact Except.noConfusion h
    | ok k =>
      rw [hr] at h
      intro kv hkv
      rcases ih (dictSet acc k room) h kv hkv with hin | ⟨r, hrmem, hrid, hval⟩
      · rcases dictSet_mem acc k room kv hin with h1 | h2
        · exact Or.inl h1
        · subst h2
          exact Or.inr ⟨room, by simp, by simpa using hr, rfl⟩
      · exact Or.inr ⟨r, by simp [hrmem], hrid, hval⟩

theorem indexByIdAux_contains_mono (rs : List JVal) (acc m : List (JKey × JVal))
    (k : JKey) (h : indexByIdAux rs acc = .ok m) (hk : dictContains acc k = true) :
    dictContains m k = true := by
  induction rs generalizing acc with
  | nil =>
    simp only [indexByIdAux] at h
    cases h
    exact hk
  | cons room rest ih =>
    simp only [indexByIdAux] at h
    cases hr : roomId room with
    | error e =>
      rw [hr] at h
      exact Except.noConfusion h
    | ok kid =>
      rw [hr] at h
      exact ih (dictSet acc kid room) h (dictContains_dictSet_mono acc kid room k hk)

theorem indexByIdAux_all (rs : List JVal) (acc m : List (JKey × JVal))
    (h : indexByIdAux rs acc = .ok m) :
    ∀ r ∈ rs, ∃ k, roomId r = .ok k ∧ dictContains m k = true := by
  induction rs generalizing acc with
  | nil =>
    intro r hr
    simp at hr
  | cons room rest ih =>
    simp only [indexByIdAux] at h
    cases hr : roomId room with
    | error e =>
      rw [hr] at h
      exact Except.noConfusion h
    | ok kid =>
      rw [hr] at h
      intro r hrm
      rcases List.mem_cons.mp hrm with rfl | hmem
      · exact ⟨kid, hr,
          indexByIdAux_contains_mono rest _ m kid h
            (dictContains_dictSet_self acc kid r)⟩
      · exact ih (dictSet acc kid room) h r hmem

theorem isRoomsType_false_of_ne (o : Option JVal)
    (h : o ≠ some (JVal.str "rooms")) : isRoomsType o = false := by
  cases o with
  | none => rfl
  | some v =>
    cases v with
    | str s =>
      simp only [isRoomsType]
      by_cases hs : s = "rooms"
      · exact absurd (by rw [hs]) h
      · simp [hs]
    | null => rfl
    | bool b => rfl
    | num n => rfl
    | arr xs => rfl
    | obj fs => rfl

/-- C10: a well-formed inbound message (a dict) whose `type` is anything
other than the string `"rooms"` (including a missing `type`) produces no
mailbox event — the read loop continues with nothing queued and an empty
drain leaves the store untouched; and a `"rooms"` message whose `rooms`
list indexes successfully yields exactly one `RoomsSnapshot` whose mapping
is keyed by each listed entity's own id (every stored entry is some listed
room under its id, and every listed room's id is a key of the mapping). -/
theorem only_rooms_messages_yield_events :
    (∀ (fields : List (String × JVal)) (s : GlobalState),
        objGet fields "type" ≠ some (JVal.str "rooms") →
        classify (.obj fields) = .ok none
        ∧ processCycle (.msg (some (.obj fields))) = .continueLoop none
        ∧ update_from_queue s [] = s)
    ∧ (∀ (fields : List (String × JVal)) (rs : List JVal) (m : List (JKey × JVal)),
        objGet fields "type" = some (JVal.str "rooms") →
        objGet fields "rooms" = some (.arr rs) →
        indexById rs = .ok m →
        classify (.obj fields) = .ok (some (.roomsSnapshot m))
        ∧ processCycle (.msg (some (.obj fields)))
            = .continueLoop (some (.roomsSnapshot m))
        ∧ (∀ kv ∈ m, ∃ r ∈ rs, roomId r = .ok kv.1 ∧ kv.2 = r)
        ∧ (∀ r ∈ rs, ∃ k, roomId r = .ok k ∧ dictContains m k = true)) := by
  constructor
  · intro fields s h
    have hf := isRoomsType_false_of_ne _ h
    have hcl : classify (.obj fields) = .ok none := by
      simp [classify, hf]
    exact ⟨hcl, by simp [processCycle, json_loads, hcl], rfl⟩
  · intro fields rs m ht hr hidx
    have hT : isRoomsType (objGet fields "type") = true := by
      rw [ht]
      simp [isRoomsType]
    have hcl : classify (.obj fields) = .ok (some (.roomsSnapshot m)) := by
      simp [classify, hT, hr, hidx]
    refine ⟨hcl, by simp [processCycle, json_loads, hcl], ?_, ?_⟩
    · intro kv hkv
      rcases indexByIdAux_mem rs [] m hidx kv hkv with h1 | h2
      · simp at h1
      · exact h2
    · exact indexByIdAux_all rs [] m hidx

/-- Witness for C10: a `status` message yields no event; a one-room `rooms`
message yields the snapshot keyed by the room's id. -/
theorem only_rooms_messages_yield_events_witness :
    classify (.obj [("type", JVal.str "status")]) = .ok none
    ∧ classify (.obj [("type", JVal.str "rooms"),
        ("rooms", JVal.arr [JVal.obj [("id", JVal.str "r1")]])])
      = .ok (some (.roomsSnapshot
          [(JKey.str "r1", JVal.obj [("id", JVal.str "r1")])])) :=
  ⟨(only_rooms_messages_yield_events.1 [("type", JVal.str "status")] ⟨[], false⟩
      (by simp [objGet])).1,
   (only_rooms_messages_yield_events.2 [("type", JVal.str "rooms"),
        ("rooms", JVal.arr [JVal.obj [("id", JVal.str "r1")]])]
      [JVal.obj [("id", JVal.str "r1")]]
      [(JKey.str "r1", JVal.obj [("id", JVal.str "r1")])]
      rfl rfl rfl).1⟩
